import Mathlib

/-!
Verification development for the DVB text-field decoding core
(`dvbtext.c`): encoding resolution, charset-conversion caching, Freesat
huffman dispatch, and XML entity escaping.

Byte sequences are modelled as `List Nat`, each element the value of one
byte of the C string's content (C strings are NUL-free, so the lists we
care about contain no interior 0; the definitions are nonetheless total).
External collaborators (iconv, the Freesat huffman decoder, the log sink)
are modelled at their boundaries: iconv as an `Engine` parameter, the
decoder as a function parameter, and the log as an explicit event list in
the result.
-/

set_option autoImplicit false

namespace DvbText

/-- Events sent to the diagnostic sink (`log_message` calls). -/
inductive LogEvent where
  | reservedEncoding (code : Nat)
  | forbiddenChar (b : Nat)
  | iconvOpenFailed
  deriving DecidableEq, Repr

/-- `b ≤ 0x08 || (0x0B ≤ b ≤ 0x1F) || b == 0x7F`: the control bytes the
`xmlify` switch flags as forbidden (cases `0x0000 ... 0x0008`,
`0x000B ... 0x001F`, `0x007F`). -/
def isForbidden (b : Nat) : Bool :=
  b ≤ 0x08 || (0x0B ≤ b && b ≤ 0x1F) || b == 0x7F

/-- One iteration of the `xmlify` scan loop: the bytes written to `result`
for input byte `b`, and the log events emitted.  Mirrors the `switch` in
`xmlify`: `"` (34) emits `&quot;`, `&` (38) emits `&amp;`, `<` (60) emits
`&lt;`, `>` (62) emits `&gt;`; a forbidden control byte is logged and then
falls through to the default case; every other byte is copied. -/
def xmlifyStep (b : Nat) : List Nat × List LogEvent :=
  if b = 34 then ([38, 113, 117, 111, 116, 59], [])
  else if b = 38 then ([38, 97, 109, 112, 59], [])
  else if b = 60 then ([38, 108, 116, 59], [])
  else if b = 62 then ([38, 103, 116, 59], [])
  else if isForbidden b then ([b], [LogEvent.forbiddenChar b])
  else ([b], [])

/-- The `xmlify` loop: left-to-right over the bytes of `s`, concatenating
the bytes written and the log events emitted per byte. -/
def xmlifyAux : List Nat → List Nat × List LogEvent
  | [] => ([], [])
  | b :: rest =>
      ((xmlifyStep b).1 ++ (xmlifyAux rest).1,
       (xmlifyStep b).2 ++ (xmlifyAux rest).2)

/-- `xmlify`: the bytes written to the `result` buffer (before the
terminating NUL). -/
def xmlify (s : List Nat) : List Nat := (xmlifyAux s).1

/-- The log events emitted during one `xmlify` call. -/
def xmlifyLogs (s : List Nat) : List LogEvent := (xmlifyAux s).2

/-- `iso6937_encoding = "ISO6937"`: the fixed legacy default charset.
The source comment notes the DVB spec says ISO-6937 but stations often
use ISO-8859-1; the code uses this constant for the default path. -/
def iso6937_encoding : String := "ISO6937"

/-- The handler/data pairs stored in the 256-entry `encoding` table.  The
constructors correspond one-to-one to the handler functions of the
source: `encoding_reserved`, `encoding_fixed`, `encoding_variable`,
`encoding_freesat`. -/
inductive Handler where
  | reserved
  | fixed (d : String)
  | variable (d : String)
  | freesat (d : String)
  deriving DecidableEq, Repr

/-- The `encoding[256]` dispatch table.  Slots 0x00–0x1F are initialised
explicitly in the source; slots 0x20–0xFF are zero-initialised (handler
is a null pointer — the commented-out `encoding_default` initialiser is
not live code), modelled as `none`.  `convert_text` only indexes the
table for a first byte < 0x1F, so the `none` slots and slot 0x1F are
never consulted. -/
def encoding : Nat → Option Handler
  | 0x00 => some Handler.reserved
  | 0x01 => some (Handler.fixed "ISO-8859-5")
  | 0x02 => some (Handler.fixed "ISO-8859-6")
  | 0x03 => some (Handler.fixed "ISO-8859-7")
  | 0x04 => some (Handler.fixed "ISO-8859-8")
  | 0x05 => some (Handler.fixed "ISO-8859-9")
  | 0x06 => some (Handler.fixed "ISO-8859-10")
  | 0x07 => some (Handler.fixed "ISO-8859-11")
  | 0x08 => some (Handler.fixed "ISO-8859-12")
  | 0x09 => some (Handler.fixed "ISO-8859-13")
  | 0x0A => some (Handler.fixed "ISO-8859-14")
  | 0x0B => some (Handler.fixed "ISO-8859-15")
  | 0x0C => some Handler.reserved
  | 0x0D => some Handler.reserved
  | 0x0E => some Handler.reserved
  | 0x0F => some Handler.reserved
  | 0x10 => some (Handler.variable "ISO-8859-%d")
  | 0x11 => some (Handler.fixed "ISO-10646/UCS2")
  | 0x12 => some (Handler.fixed "KSC_5601")
  | 0x13 => some (Handler.fixed "GB_2312-80")
  | 0x14 => some (Handler.fixed "BIG5")
  | 0x15 => some (Handler.fixed "ISO-10646/UTF8")
  | 0x16 => some Handler.reserved
  | 0x17 => some Handler.reserved
  | 0x18 => some Handler.reserved
  | 0x19 => some Handler.reserved
  | 0x1A => some Handler.reserved
  | 0x1B => some Handler.reserved
  | 0x1C => some Handler.reserved
  | 0x1D => some Handler.reserved
  | 0x1E => some Handler.reserved
  | 0x1F => some (Handler.freesat "ISO-10646/UTF8")
  | _ => none

/-- Resolution errors.  The source only ever produces the
reserved-slot failure (`encoding_reserved` returning 1, surfaced by
`convert_text` as the empty string); `invalidInput` is included so that
the error taxonomy of the specification can be stated and compared. -/
inductive ResolutionError where
  | invalidInput
  | unsupportedEncoding (code : Nat)
  deriving DecidableEq, Repr

/-- Substitute the decimal rendering of `i` for the first `%d` in a
character list; `%d` is the only conversion directive appearing in the
`encoding` table's format strings. -/
def formatD : List Char → Nat → List Char
  | [], _ => []
  | '%' :: 'd' :: rest, i => (Nat.repr i).toList ++ rest
  | c :: rest, i => c :: formatD rest i

/-- `snprintf(t, 16, d, i)` for the one format used by the table
(`"ISO-8859-%d"`): substitute the decimal rendering of `i` for `%d` and
truncate to the 15 characters that fit the 16-byte buffer. -/
def snprintf_d (d : String) (i : Nat) : String :=
  String.mk ((formatD d.toList i).take 15)

instance {ε α : Type} [DecidableEq ε] [DecidableEq α] :
    DecidableEq (Except ε α) := fun x y =>
  match x, y with
  | Except.error a, Except.error b => decidable_of_iff (a = b) (by simp)
  | Except.ok a, Except.ok b => decidable_of_iff (a = b) (by simp)
  | Except.error _, Except.ok _ => isFalse (by simp)
  | Except.ok _, Except.error _ => isFalse (by simp)

/-- The byte read by `s[0]` on the C string `s`: the first content byte,
or the NUL terminator (0) when the string is empty. -/
def firstByte (s : List Nat) : Nat := s.headD 0

/-- The first phase of `convert_text`: `i = (unsigned char) s[0]`; if
`i < 0x1F` dispatch through `encoding[i]`, otherwise run
`encoding_default`.  Returns the charset name written into `cs_new` and
the number of bytes the handler advanced `s` by, or the handler failure.

`stack1`/`stack2` model the two bytes `encoding_variable` actually
reads: its `*s[1]` and `*s[2]` parse as `*(s[1])` and `*(s[2])` (array
indexing binds tighter than dereference), i.e. dereferences of the two
pointer-sized stack slots that follow the local variable `s` in
`convert_text`'s frame — out-of-bounds reads whose values are unrelated
to the input bytes.  They are therefore unconstrained parameters here,
reduced mod 256 by the `(unsigned char)` casts.

The charset names all fit the 16-byte `cs_new`/`cs_old` buffers (longest
is 14 characters), so `strncpy(..., 16)` and `strncmp(..., 16)` behave
as plain string copy and comparison. -/
def resolve (stack1 stack2 : Nat) (s : List Nat) :
    Except ResolutionError (String × Nat) :=
  let i := firstByte s
  if i < 0x1F then
    match encoding i with
    | some Handler.reserved => Except.error (ResolutionError.unsupportedEncoding i)
    | some (Handler.fixed d) => Except.ok (d, 1)
    | some (Handler.variable d) =>
        Except.ok (snprintf_d d ((stack1 % 256) * 256 + stack2 % 256), 3)
    | some (Handler.freesat d) => Except.ok (d, 0)
    | none => Except.error (ResolutionError.unsupportedEncoding i)
  else
    Except.ok (iso6937_encoding, 0)

/-- The conversion engine (iconv) at its boundary: whether
`iconv_open("UTF-8", cs)` succeeds, and the UTF-8 bytes `iconv` produces
for a given source charset and input bytes. -/
structure Engine where
  openOk : String → Bool
  conv : String → List Nat → List Nat

/-- The process-wide conversion state: the `cs_old` name cache and the
`iconv_t cd` handle, modelled by the charset the handle is open for
(`none` = `NULL`). -/
structure ConvState where
  cs_old : String
  cd : Option String
  deriving DecidableEq, Repr

/-- The zero-initialised statics: `cs_old` all zero bytes (the empty
string) and `cd = NULL`. -/
def initialConvState : ConvState := ⟨"", none⟩

/-- The cache block of `convert_text` (the `strncmp(cs_old, cs_new, 16)`
guard): on a name change, close any open handle, open a new one, and on
success copy the new name into `cs_old`; `iconv_open` failure calls
`exit(1)`.  Returns (exited, new state, `iconv_open` call count,
`iconv_close` call count). -/
def cacheStep (eng : Engine) (st : ConvState) (cs_new : String) :
    Bool × ConvState × Nat × Nat :=
  if st.cs_old ≠ cs_new then
    let closes := if st.cd.isSome then 1 else 0
    if eng.openOk cs_new then
      (false, ⟨cs_new, some cs_new⟩, 1, closes)
    else
      (true, ⟨st.cs_old, none⟩, 1, closes)
  else
    (false, st, 0, 0)

/-- Everything observable about one `convert_text` call: whether the
process exited, the conversion state afterwards, the bytes of the
returned string, the engine call counts, the bytes handed to
`freesat_huffman_to_string` (if it was called), the arguments of the
`iconv` data call (if reached), and the log events in order. -/
structure ConvResult where
  exited : Bool
  state : ConvState
  output : List Nat
  opens : Nat
  closes : Nat
  huffIn : Option (List Nat)
  convArgs : Option (String × List Nat)
  logs : List LogEvent
  deriving DecidableEq, Repr

/-- `convert_text(s)`: resolve the encoding from the first byte (a
reserved slot returns `""` after logging); if the first byte was exactly
0x1F, replace `s` by the huffman decoder's output (note the handler that
ran for 0x1F was `encoding_default`, which did not advance `s`, so the
decoder receives the whole field, selector byte included); run the cache
block; feed the bytes through `iconv` into `buf`; return `xmlify(buf)`.
`eng` is the iconv boundary and `huffman` the Freesat decoder boundary;
`stack1`/`stack2` are the out-of-bounds stack bytes described at
`resolve`. -/
def convert_text (eng : Engine) (huffman : List Nat → List Nat)
    (stack1 stack2 : Nat) (st : ConvState) (s : List Nat) : ConvResult :=
  let i := firstByte s
  match resolve stack1 stack2 s with
  | Except.error (ResolutionError.unsupportedEncoding c) =>
      { exited := false, state := st, output := [], opens := 0, closes := 0,
        huffIn := none, convArgs := none,
        logs := [LogEvent.reservedEncoding c] }
  | Except.error ResolutionError.invalidInput =>
      { exited := false, state := st, output := [], opens := 0, closes := 0,
        huffIn := none, convArgs := none, logs := [] }
  | Except.ok (cs_new, offset) =>
      let content := s.drop offset
      let content2 := if i = 0x1F then huffman content else content
      let hIn : Option (List Nat) := if i = 0x1F then some content else none
      match cacheStep eng st cs_new with
      | (true, st2, opens, closes) =>
          { exited := true, state := st2, output := [], opens := opens,
            closes := closes, huffIn := hIn, convArgs := none,
            logs := [LogEvent.iconvOpenFailed] }
      | (false, st2, opens, closes) =>
          let out := eng.conv cs_new content2
          { exited := false, state := st2, output := xmlify out,
            opens := opens, closes := closes, huffIn := hIn,
            convArgs := some (cs_new, content2),
            logs := xmlifyLogs out }

/-- Per-byte substitution table exactly as the specification words it:
`"` → `&quot;`, `&` → `&amp;`, `<` → `&lt;`, `>` → `&gt;`, every other
byte copied through unchanged.  Used only to compare against the
source-derived `xmlify`. -/
def escSpecByte (b : Nat) : List Nat :=
  if b = 34 then [38, 113, 117, 111, 116, 59]
  else if b = 38 then [38, 97, 109, 112, 59]
  else if b = 60 then [38, 108, 116, 59]
  else if b = 62 then [38, 103, 116, 59]
  else [b]

/-- A concrete conversion engine for instantiating theorems: every
charset opens, and conversion is the identity on bytes. -/
def idEngine : Engine := ⟨fun _ => true, fun _ l => l⟩

/-- A concrete conversion engine whose data conversion returns the fixed
byte 0x43, distinguishable from its input. -/
def constEngine : Engine := ⟨fun _ => true, fun _ _ => [67]⟩

/-- A concrete conversion engine for which `iconv_open` always fails. -/
def failEngine : Engine := ⟨fun _ => false, fun _ l => l⟩

/-- A concrete huffman-decoder stub returning the fixed byte 0x42. -/
def constHuffman : List Nat → List Nat := fun _ => [66]

/-- A concrete huffman-decoder stub that returns its input. -/
def idHuffman : List Nat → List Nat := fun l => l

theorem xmlifyStep_fst (b : Nat) : (xmlifyStep b).1 = escSpecByte b := by
  unfold xmlifyStep escSpecByte
  split_ifs <;> rfl

theorem xmlify_nil : xmlify [] = [] := rfl

theorem xmlify_cons (b : Nat) (rest : List Nat) :
    xmlify (b :: rest) = (xmlifyStep b).1 ++ xmlify rest := rfl

theorem xmlifyLogs_cons (b : Nat) (rest : List Nat) :
    xmlifyLogs (b :: rest) = (xmlifyStep b).2 ++ xmlifyLogs rest := rfl

/-- C1: For every UTF-8 byte sequence, the XML escaper produces the
byte-wise left-to-right image of the input in which each `"` byte is
replaced by the bytes of `&quot;`, each `&` by `&amp;`, each `<` by
`&lt;`, each `>` by `&gt;`, and every other byte is copied through
unchanged, in input order. -/
theorem xmlify_is_bytewise_substitution (s : List Nat) :
    xmlify s = s.flatMap escSpecByte := by
  induction s with
  | nil => rfl
  | cons b rest ih =>
      rw [xmlify_cons, List.flatMap_cons, ih, xmlifyStep_fst]

theorem isForbidden_bounds {b : Nat} (h : isForbidden b = true) :
    b ≤ 31 ∨ b = 127 := by
  unfold isForbidden at h
  simp only [Bool.or_eq_true, Bool.and_eq_true, decide_eq_true_eq,
    beq_iff_eq] at h
  omega

theorem xmlifyStep_snd (b : Nat) :
    (xmlifyStep b).2 =
      if isForbidden b then [LogEvent.forbiddenChar b] else [] := by
  by_cases h1 : b = 34
  · subst h1; decide
  by_cases h2 : b = 38
  · subst h2; decide
  by_cases h3 : b = 60
  · subst h3; decide
  by_cases h4 : b = 62
  · subst h4; decide
  by_cases h5 : isForbidden b <;>
    simp [xmlifyStep, h1, h2, h3, h4, h5]

theorem xmlifyStep_forbidden (b : Nat) (h : isForbidden b = true) :
    (xmlifyStep b).1 = [b] := by
  rw [xmlifyStep_fst]
  have hb := isForbidden_bounds h
  have h1 : b ≠ 34 := by omega
  have h2 : b ≠ 38 := by omega
  have h3 : b ≠ 60 := by omega
  have h4 : b ≠ 62 := by omega
  simp [escSpecByte, h1, h2, h3, h4]

/-- C2: For every input byte sequence, the XML escaper reports, via
the diagnostic sink, exactly the occurrences of forbidden control bytes
(ranges 0x00–0x08, 0x0B–0x1F, and 0x7F), in input order, and the bytes it
writes for a forbidden occurrence are that raw byte unchanged: no
forbidden byte is stripped or replaced. -/
theorem xmlify_reports_and_keeps_forbidden (s : List Nat) :
    xmlifyLogs s =
      (s.filter (fun b => isForbidden b)).map LogEvent.forbiddenChar ∧
    ∀ b ∈ s, isForbidden b = true → (xmlifyStep b).1 = [b] := by
  constructor
  · induction s with
    | nil => rfl
    | cons b rest ih =>
        rw [xmlifyLogs_cons, xmlifyStep_snd, ih]
        by_cases h : isForbidden b <;> simp [h, List.filter_cons]
  · intro b _ h
    exact xmlifyStep_forbidden b h

theorem length_le_length_xmlify (s : List Nat) :
    s.length ≤ (xmlify s).length := by
  induction s with
  | nil => simp [xmlify_nil]
  | cons b rest ih =>
      rw [xmlify_cons, List.length_append, xmlifyStep_fst]
      have h1 : 1 ≤ (escSpecByte b).length := by
        unfold escSpecByte
        split_ifs <;> simp
      have hl : (b :: rest).length = rest.length + 1 := List.length_cons b rest
      omega

theorem amp_mem_xmlify {s : List Nat} (h : 38 ∈ s) : 38 ∈ xmlify s := by
  induction s with
  | nil => cases h
  | cons b rest ih =>
      rw [xmlify_cons, List.mem_append]
      rcases List.mem_cons.mp h with hb | hb
      · left
        rw [xmlifyStep_fst, ← hb]
        simp [escSpecByte]
      · right
        exact ih hb

theorem length_lt_length_xmlify {s : List Nat} (h : 38 ∈ s) :
    s.length < (xmlify s).length := by
  induction s with
  | nil => cases h
  | cons b rest ih =>
      rw [xmlify_cons, List.length_append, xmlifyStep_fst]
      have h1 : 1 ≤ (escSpecByte b).length := by
        unfold escSpecByte
        split_ifs <;> simp
      have hl : (b :: rest).length = rest.length + 1 := List.length_cons b rest
      rcases List.mem_cons.mp h with hb | hb
      · have h2 : (escSpecByte b).length = 5 := by
          rw [← hb]
          decide
        have h3 := length_le_length_xmlify rest
        omega
      · have h3 := ih hb
        omega

/-- C10: XML escaping is not idempotent: for every input containing an
`&` byte, escaping the escaper's output differs from escaping once,
because the `&` of an emitted entity is itself escaped again. -/
theorem xmlify_not_idempotent (s : List Nat) (h : 38 ∈ s) :
    xmlify (xmlify s) ≠ xmlify s := by
  intro heq
  have h1 : 38 ∈ xmlify s := amp_mem_xmlify h
  have h2 : (xmlify s).length < (xmlify (xmlify s)).length :=
    length_lt_length_xmlify h1
  rw [heq] at h2
  omega

/-- Concrete instance of `xmlify_not_idempotent` at the one-byte input
`[38]` (a single `&`). -/
theorem xmlify_not_idempotent_witness :
    38 ∈ [38] ∧ xmlify (xmlify [38]) ≠ xmlify [38] :=
  ⟨by decide, xmlify_not_idempotent [38] (by decide)⟩

/-- Concrete instance of `xmlify_reports_and_keeps_forbidden` at the input
`[72, 7, 105]` (one forbidden byte 0x07 between two letters). -/
theorem xmlify_reports_and_keeps_forbidden_witness :
    xmlifyLogs [72, 7, 105] =
      (([72, 7, 105].filter (fun b => isForbidden b)).map
        LogEvent.forbiddenChar) ∧
    ∀ b ∈ [72, 7, 105], isForbidden b = true → (xmlifyStep b).1 = [b] :=
  xmlify_reports_and_keeps_forbidden [72, 7, 105]

/-- C4: For every input whose first byte is at least 0x1F — including the
0x1F case, which the range test `i < 0x1F` excludes from table lookup
even though the table has a (freesat) slot for it — resolution returns
the fixed legacy default charset `"ISO6937"` with content offset 0, so
the first byte is treated as content and not consumed. -/
theorem resolve_high_bytes_default (stack1 stack2 : Nat) (s : List Nat)
    (h : 0x1F ≤ firstByte s) :
    resolve stack1 stack2 s = Except.ok (iso6937_encoding, 0) ∧
    encoding 0x1F = some (Handler.freesat "ISO-10646/UTF8") := by
  have hn : ¬ (firstByte s < 0x1F) := by omega
  exact ⟨by simp [resolve, hn], rfl⟩

/-- Concrete instance of `resolve_high_bytes_default` at the input
`[0x1F, 65]`, the excluded-slot case itself. -/
theorem resolve_high_bytes_default_witness :
    resolve 0 0 [0x1F, 65] = Except.ok (iso6937_encoding, 0) ∧
    encoding 0x1F = some (Handler.freesat "ISO-10646/UTF8") :=
  resolve_high_bytes_default 0 0 [0x1F, 65] (by decide)

/-- C5 (code evaluated at the failing input): on the variable-charset
input `[0x10, 0x00, 0x05, 0x41]` the resolved charset is produced from
the out-of-bounds stack bytes (`*(s[1])`, `*(s[2])`), not from the input
bytes `raw[1] = 0x00`, `raw[2] = 0x05`: with stack bytes (0, 7) the
result is `"ISO-8859-7"`, not the `"ISO-8859-5"` the claim requires, and
the result changes when only the stack bytes change. -/
theorem resolve_variable_stack_bytes :
    resolve 0 7 [0x10, 0x00, 0x05, 0x41] = Except.ok ("ISO-8859-7", 3) ∧
    resolve 0 7 [0x10, 0x00, 0x05, 0x41] ≠ Except.ok ("ISO-8859-5", 3) ∧
    resolve 0 5 [0x10, 0x00, 0x05, 0x41] = Except.ok ("ISO-8859-5", 3) :=
  ⟨by decide, by decide, by decide⟩

/-- C6: For every non-empty input whose first byte selects a
fixed-charset table slot (0x01–0x0B, 0x11–0x15), resolution returns that
slot's fixed charset name with content offset 1; in particular
`[0x01, 'H', 'i']` resolves to `"ISO-8859-5"` with offset 1 and the
pipeline output for it is `"Hi"` (for any engine that converts the ASCII
bytes of `"Hi"` to themselves). -/
theorem resolve_fixed_slot_and_scenario
    (b0 : Nat) (rest : List Nat) (stack1 stack2 : Nat) (eng : Engine)
    (huffman : List Nat → List Nat) (st : ConvState)
    (h : (1 ≤ b0 ∧ b0 ≤ 0x0B) ∨ (0x11 ≤ b0 ∧ b0 ≤ 0x15))
    (hopen : eng.openOk "ISO-8859-5" = true)
    (hconv : eng.conv "ISO-8859-5" [72, 105] = [72, 105]) :
    (∃ d, encoding b0 = some (Handler.fixed d) ∧
        resolve stack1 stack2 (b0 :: rest) = Except.ok (d, 1)) ∧
    resolve stack1 stack2 [0x01, 72, 105] = Except.ok ("ISO-8859-5", 1) ∧
    (convert_text eng huffman stack1 stack2 st [0x01, 72, 105]).output =
      [72, 105] := by
  refine ⟨?_, rfl, ?_⟩
  · rcases h with ⟨h1, h2⟩ | ⟨h1, h2⟩ <;> interval_cases b0 <;>
      exact ⟨_, rfl, rfl⟩
  · by_cases hcs : st.cs_old = "ISO-8859-5" <;>
      simp [convert_text, resolve, firstByte, encoding, cacheStep, hcs,
        hopen, hconv, xmlify, xmlifyAux, xmlifyStep, isForbidden]

/-- Concrete instance of `resolve_fixed_slot_and_scenario` at slot 0x01
with the identity engine and initial state. -/
theorem resolve_fixed_slot_and_scenario_witness :
    (∃ d, encoding 0x01 = some (Handler.fixed d) ∧
        resolve 0 0 (0x01 :: [72, 105]) = Except.ok (d, 1)) ∧
    resolve 0 0 [0x01, 72, 105] = Except.ok ("ISO-8859-5", 1) ∧
    (convert_text idEngine idHuffman 0 0 initialConvState
        [0x01, 72, 105]).output = [72, 105] :=
  resolve_fixed_slot_and_scenario 0x01 [72, 105] 0 0 idEngine idHuffman
    initialConvState (Or.inl (by decide)) rfl rfl

/-- C7: For every input whose first byte maps to a reserved table slot
(0x00, 0x0C–0x0F, 0x16–0x1E), resolution fails with
`unsupportedEncoding` carrying that byte, the code is logged, and the
pipeline returns the empty result for the field without exiting. -/
theorem resolve_reserved_slot_recoverable
    (b0 : Nat) (rest : List Nat) (stack1 stack2 : Nat) (eng : Engine)
    (huffman : List Nat → List Nat) (st : ConvState)
    (h : b0 = 0 ∨ (0x0C ≤ b0 ∧ b0 ≤ 0x0F) ∨ (0x16 ≤ b0 ∧ b0 ≤ 0x1E)) :
    resolve stack1 stack2 (b0 :: rest) =
      Except.error (ResolutionError.unsupportedEncoding b0) ∧
    (convert_text eng huffman stack1 stack2 st (b0 :: rest)).output = [] ∧
    (convert_text eng huffman stack1 stack2 st (b0 :: rest)).logs =
      [LogEvent.reservedEncoding b0] ∧
    (convert_text eng huffman stack1 stack2 st (b0 :: rest)).exited =
      false := by
  rcases h with h | ⟨h1, h2⟩ | ⟨h1, h2⟩
  · subst h; exact ⟨rfl, rfl, rfl, rfl⟩
  · interval_cases b0 <;> exact ⟨rfl, rfl, rfl, rfl⟩
  · interval_cases b0 <;> exact ⟨rfl, rfl, rfl, rfl⟩

/-- Concrete instance of `resolve_reserved_slot_recoverable` at the
specification's scenario input `[0x0C]`. -/
theorem resolve_reserved_slot_recoverable_witness :
    resolve 0 0 (0x0C :: []) =
      Except.error (ResolutionError.unsupportedEncoding 0x0C) ∧
    (convert_text idEngine idHuffman 0 0 initialConvState
        (0x0C :: [])).output = [] ∧
    (convert_text idEngine idHuffman 0 0 initialConvState
        (0x0C :: [])).logs = [LogEvent.reservedEncoding 0x0C] ∧
    (convert_text idEngine idHuffman 0 0 initialConvState
        (0x0C :: [])).exited = false :=
  resolve_reserved_slot_recoverable 0x0C [] 0 0 idEngine idHuffman
    initialConvState (Or.inr (Or.inl (by decide)))

/-- C8 counterexample: the empty raw field does not fail with
`invalidInput`.  `s[0]` on the empty C string reads the NUL terminator,
so resolution goes through reserved table slot 0x00 and fails with
`unsupportedEncoding 0`, a different error. -/
theorem resolve_empty_unsupported_cx :
    resolve 0 0 [] = Except.error (ResolutionError.unsupportedEncoding 0) ∧
    Except.error (ResolutionError.unsupportedEncoding 0) ≠
      (Except.error ResolutionError.invalidInput :
        Except ResolutionError (String × Nat)) := by
  exact ⟨by decide, by decide⟩

/-- C8 amended: resolution never produces `invalidInput`.  An empty raw
field is classified through the NUL terminator as reserved slot 0x00 and
fails with `unsupportedEncoding 0`, and the pipeline returns the empty
result; a variable-charset selector without its 2 trailing bytes is not
rejected — resolution succeeds with content offset 3 (its index bytes
coming from the out-of-bounds stack reads, not the missing input). -/
theorem resolve_empty_and_short_fields (stack1 stack2 : Nat)
    (eng : Engine) (huffman : List Nat → List Nat) (st : ConvState) :
    resolve stack1 stack2 [] =
      Except.error (ResolutionError.unsupportedEncoding 0) ∧
    (convert_text eng huffman stack1 stack2 st []).output = [] ∧
    (∃ name, resolve stack1 stack2 [0x10] = Except.ok (name, 3)) :=
  ⟨rfl, rfl, ⟨_, rfl⟩⟩

/-- C3 counterexample: on the input `[0x1F, 65]` with a huffman stub
returning `[66]` and an engine whose conversion returns `[67]`, the
pipeline hands the decompressor's output to the charset converter under
the default charset and escapes the converter's result, so the output is
not the escaped decompressor output: the converter is not bypassed. -/
theorem convert_text_freesat_not_bypassing_cx :
    (convert_text constEngine constHuffman 0 0 initialConvState
        [0x1F, 65]).convArgs = some (iso6937_encoding, [66]) ∧
    (convert_text constEngine constHuffman 0 0 initialConvState
        [0x1F, 65]).output ≠ xmlify (constHuffman [0x1F, 65]) := by
  exact ⟨by decide, by decide⟩

/-- C3 amended: for every input whose first byte is exactly 0x1F, the
pipeline invokes the compressed-text decoder on the unadvanced raw field
(the leading 0x1F byte included), in addition to default-charset
resolution; the decompressor's output is then fed through the charset
converter with the resolved default charset `"ISO6937"` — it is not
passed directly to the XML escaper — and the converter's output is what
gets escaped. -/
theorem convert_text_freesat_through_converter
    (eng : Engine) (huffman : List Nat → List Nat) (stack1 stack2 : Nat)
    (st : ConvState) (s : List Nat)
    (h0 : firstByte s = 0x1F)
    (hopen : eng.openOk iso6937_encoding = true) :
    (convert_text eng huffman stack1 stack2 st s).huffIn = some s ∧
    (convert_text eng huffman stack1 stack2 st s).convArgs =
      some (iso6937_encoding, huffman s) ∧
    (convert_text eng huffman stack1 stack2 st s).output =
      xmlify (eng.conv iso6937_encoding (huffman s)) ∧
    (convert_text eng huffman stack1 stack2 st s).exited = false := by
  have hn : ¬ (firstByte s < 0x1F) := by omega
  by_cases hcs : st.cs_old = iso6937_encoding <;>
    simp [convert_text, resolve, hn, h0, cacheStep, hcs, hopen]

/-- Concrete instance of `convert_text_freesat_through_converter` at the
input `[0x1F, 65]` with the identity engine and huffman stub. -/
theorem convert_text_freesat_through_converter_witness :
    (convert_text idEngine constHuffman 0 0 initialConvState
        [0x1F, 65]).huffIn = some [0x1F, 65] ∧
    (convert_text idEngine constHuffman 0 0 initialConvState
        [0x1F, 65]).convArgs =
      some (iso6937_encoding, constHuffman [0x1F, 65]) ∧
    (convert_text idEngine constHuffman 0 0 initialConvState
        [0x1F, 65]).output =
      xmlify (idEngine.conv iso6937_encoding (constHuffman [0x1F, 65])) ∧
    (convert_text idEngine constHuffman 0 0 initialConvState
        [0x1F, 65]).exited = false :=
  convert_text_freesat_through_converter idEngine constHuffman 0 0
    initialConvState [0x1F, 65] (by decide) rfl

/-- C9: the charset-cache invariant of the `strncmp` block: requesting
the cached charset name neither closes nor reopens the engine handle;
requesting a different name closes the existing handle (if any) and
opens a new one exactly once, and only on a successful open is the
cached name updated to the new name — on open failure the process exits
with the cache unchanged. -/
theorem cacheStep_invariant (eng : Engine) (st : ConvState) (cs : String) :
    (st.cs_old = cs → cacheStep eng st cs = (false, st, 0, 0)) ∧
    (st.cs_old ≠ cs → eng.openOk cs = true →
        cacheStep eng st cs =
          (false, ⟨cs, some cs⟩, 1, if st.cd.isSome then 1 else 0)) ∧
    (st.cs_old ≠ cs → eng.openOk cs = false →
        (cacheStep eng st cs).1 = true ∧
        ((cacheStep eng st cs).2.1).cs_old = st.cs_old) := by
  refine ⟨fun h => ?_, fun h hopen => ?_, fun h hopen => ?_⟩
  · simp [cacheStep, h]
  · simp [cacheStep, h, hopen]
  · simp [cacheStep, h, hopen]

/-- Concrete instances of `cacheStep_invariant`: a cache hit on `"A"`, a
successful change from `"A"` to `"B"`, and a failed open for `"B"`. -/
theorem cacheStep_invariant_witness :
    cacheStep idEngine ⟨"A", some "A"⟩ "A" = (false, ⟨"A", some "A"⟩, 0, 0) ∧
    cacheStep idEngine ⟨"A", some "A"⟩ "B" =
      (false, ⟨"B", some "B"⟩, 1,
        if (ConvState.mk "A" (some "A")).cd.isSome then 1 else 0) ∧
    ((cacheStep failEngine ⟨"A", some "A"⟩ "B").1 = true ∧
      ((cacheStep failEngine ⟨"A", some "A"⟩ "B").2.1).cs_old = "A") :=
  ⟨(cacheStep_invariant idEngine ⟨"A", some "A"⟩ "A").1 rfl,
   (cacheStep_invariant idEngine ⟨"A", some "A"⟩ "B").2.1 (by decide) rfl,
   (cacheStep_invariant failEngine ⟨"A", some "A"⟩ "B").2.2 (by decide) rfl⟩

end DvbText
